import Mathlib

/-!
# sys_prog: directory listing rendered as a table

A shallow embedding of `src/main.cpp`:

* `getPermissions` (lines 39-61): the permission text of one path;
* `getDirectorySize` (lines 23-35): the recursive size of a directory;
* the loading loop of `main` (lines 97-119) as `loadTable`;
* one frame of the render loop (lines 137-211) as `drawFrame`;
* the render loop itself (lines 127-212) as `renderLoop`.

The operating system, SDL and SDL_ttf are not part of the program.  What they
answer is an input of the model: a directory tree whose nodes carry the outcome
of the queries the program makes on them, a function measuring rendered text,
and the events and surface size seen by each iteration of the render loop.

How the machine is modelled:

* an exception is an explicit outcome.  The iteration over a directory tells
  whether it threw (a directory that cannot be opened).  The queries
  `fs::is_regular_file`, `fs::is_directory`, `fs::file_size`,
  `fs::last_write_time` and `stat` are the system call `stat` on the path of
  the entry: on a node on which it fails they throw, or report the failure,
  together; a path that is not found makes the first two answer false and the
  others fail.  `fs::is_symlink` is taken to answer;
* `uintmax_t` arithmetic is arithmetic modulo `2 ^ 64`;
* the conversion of `tableData.size() + 1` to `int` is the conversion modulo
  `2 ^ 32`; `int` arithmetic is exact and `/` rounds toward zero (where an
  `int` would overflow C++ gives the program no meaning, and the model says
  nothing about the program there).
-/

namespace SysProg

/-! ## Mode bits of `<sys/stat.h>` (POSIX values, file type values of Linux) -/

def S_IFMT : Nat := 0o170000
def S_IFDIR : Nat := 0o040000
def S_IFREG : Nat := 0o100000
def S_ISUID : Nat := 0o4000
def S_ISGID : Nat := 0o2000
def S_IRUSR : Nat := 0o400
def S_IWUSR : Nat := 0o200
def S_IXUSR : Nat := 0o100
def S_IRGRP : Nat := 0o040
def S_IWGRP : Nat := 0o020
def S_IXGRP : Nat := 0o010
def S_IROTH : Nat := 0o004
def S_IWOTH : Nat := 0o002
def S_IXOTH : Nat := 0o001

/-- The macro `S_ISDIR(m)`. -/
def S_ISDIR (m : Nat) : Bool := (m &&& S_IFMT) == S_IFDIR

/-- The macro `S_ISREG(m)`. -/
def S_ISREG (m : Nat) : Bool := (m &&& S_IFMT) == S_IFREG

/-- The C++ condition `st_mode & mask`: true when the result is not zero. -/
def hasBit (st_mode mask : Nat) : Bool := (st_mode &&& mask) != 0

/-! ## getPermissions -/

/-- The three characters of the local `prefix` of `getPermissions` (lines 43-46):
it starts as `"---"`, slot 0 becomes `l` for a symbolic link, slot 1 `u` for
setuid and slot 2 `g` for setgid. -/
def permFlags (st_mode : Nat) (isSymlink : Bool) : List Char :=
  [ if isSymlink then 'l' else '-',
    if hasBit st_mode S_ISUID then 'u' else '-',
    if hasBit st_mode S_ISGID then 'g' else '-' ]

/-- The ten characters appended to the local `perms` of `getPermissions`
(lines 48-58). -/
def permChars (st_mode : Nat) : List Char :=
  [ if S_ISDIR st_mode then 'd' else '-',
    if hasBit st_mode S_IRUSR then 'r' else '-',
    if hasBit st_mode S_IWUSR then 'w' else '-',
    if hasBit st_mode S_IXUSR then 'x' else '-',
    if hasBit st_mode S_IRGRP then 'r' else '-',
    if hasBit st_mode S_IWGRP then 'w' else '-',
    if hasBit st_mode S_IXGRP then 'x' else '-',
    if hasBit st_mode S_IROTH then 'r' else '-',
    if hasBit st_mode S_IWOTH then 'w' else '-',
    if hasBit st_mode S_IXOTH then 'x' else '-' ]

/-- The function `getPermissions` (lines 39-61).  `st` is the outcome of
`stat(path, &info)`: `none` when the call fails, `some st_mode` when it
succeeds; `isSymlink` is what `fs::is_symlink(path)` answers. -/
def getPermissions (st : Option Nat) (isSymlink : Bool) : String :=
  match st with
  | none => "??????????"
  | some st_mode => String.mk (permFlags st_mode isSymlink) ++ " " ++ String.mk (permChars st_mode)

/-! ## The directory tree and its traversal -/

/-- What `stat` stores for a path, as far as the program reads it. -/
structure Stat where
  /-- The field `st_mode`. -/
  st_mode : Nat
  /-- The text `std::asctime` gives for the last-write time, with its final
  newline. -/
  lastWrite : String
deriving DecidableEq

/-- What the system answers about one directory entry.  The queries
`fs::is_regular_file`, `fs::is_directory`, `fs::file_size`,
`fs::last_write_time` and `stat` all come down to the system call `stat` on the
path of the entry, so they succeed or fail together. -/
structure Info where
  /-- The text of `entry.path().filename().string()`. -/
  name : String
  /-- What `stat` on the path stores; `none` when it fails with an error such as
  `EACCES` (an entry of a directory that can be listed but not searched). -/
  stat : Option Stat
  /-- The answer of `fs::is_symlink`. -/
  isSymlink : Bool
deriving DecidableEq

/-- One node of the scanned tree, by what the path resolves to: `file` a regular
file with its byte length (when `isSymlink` holds the entry is a symbolic link
to that file), `dir` a directory with whether it can be opened for listing and
with its content in the order the operating system lists it (when `isSymlink`
holds the entry is a symbolic link to that directory), `other` anything else
that exists, and `missing` an entry whose path `stat` reports as not found: a
symbolic link whose target does not exist. -/
inductive Node where
  | file (info : Info) (size : Nat)
  | dir (info : Info) (openable : Bool) (children : List Node)
  | other (info : Info)
  | missing (name : String)

/-- The text of `entry.path().filename().string()`. -/
def Node.name : Node → String
  | .file info _ => info.name
  | .dir info _ _ => info.name
  | .other info => info.name
  | .missing name => name

/-- What `stat` on the path of the entry stores, `none` when `stat` fails. -/
def Node.stat : Node → Option Stat
  | .file info _ => info.stat
  | .dir info _ _ => info.stat
  | .other info => info.stat
  | .missing _ => none

/-- The answer of `fs::is_symlink` on the path of the entry. -/
def Node.isSymlink : Node → Bool
  | .file info _ => info.isSymlink
  | .dir info _ _ => info.isSymlink
  | .other info => info.isSymlink
  | .missing _ => true

/-- The call `fs::is_regular_file(entry)`: `none` when it throws, which it does
when `stat` fails with an error other than not found. -/
def isRegularFile : Node → Option Bool
  | .file info _ => info.stat.map (fun _ => true)
  | .dir info _ _ => info.stat.map (fun _ => false)
  | .other info => info.stat.map (fun _ => false)
  | .missing _ => some false

/-- The call `fs::is_directory(entry)`: `none` when it throws. -/
def isDirectory : Node → Option Bool
  | .file info _ => info.stat.map (fun _ => false)
  | .dir info _ _ => info.stat.map (fun _ => true)
  | .other info => info.stat.map (fun _ => false)
  | .missing _ => some false

/-- The call `fs::file_size(entry)`: `none` when it throws. -/
def fileSize : Node → Option Nat
  | .file info size => info.stat.map (fun _ => size)
  | .dir _ _ _ => none
  | .other _ => none
  | .missing _ => none

/-- The call `fs::last_write_time(entry)` followed by the conversion to text:
`none` when `fs::last_write_time` throws, which it does when `stat` fails, not
found included. -/
def lastWriteTime : Node → Option String
  | .file info _ => info.stat.map (fun st => st.lastWrite)
  | .dir info _ _ => info.stat.map (fun st => st.lastWrite)
  | .other info => info.stat.map (fun st => st.lastWrite)
  | .missing _ => none

mutual
/-- What `fs::recursive_directory_iterator` (default options) does from one
entry on: it yields the entry, and when the entry is a directory that is not a
symbolic link it opens it and goes through its content.  The result is the
entries yielded and whether the iteration went on without throwing; opening a
directory that cannot be opened throws. -/
def walkNode : Node → List Node × Bool
  | .dir info openable children =>
    if info.isSymlink then ([.dir info openable children], true)
    else if openable then
      let r := walkList children
      (.dir info openable children :: r.1, r.2)
    else ([.dir info openable children], false)
  | .file info size => ([.file info size], true)
  | .other info => ([.other info], true)
  | .missing name => ([.missing name], true)
/-- The iteration over the content of an opened directory: the entries yielded,
in order, and `false` when the iteration stopped by throwing. -/
def walkList : List Node → List Node × Bool
  | [] => ([], true)
  | n :: rest =>
    let r := walkNode n
    if r.2 then
      let s := walkList rest
      (r.1 ++ s.1, s.2)
    else r
end

/-- The iteration `fs::recursive_directory_iterator(dir)` started on the path of
`dir`: constructing the iterator throws when the path is not a directory that
can be opened (nothing is yielded then); a symbolic link to a directory is
followed here, since the path itself is opened. -/
def iterate : Node → List Node × Bool
  | .dir _ openable children => if openable then walkList children else ([], false)
  | .file _ _ => ([], false)
  | .other _ => ([], false)
  | .missing _ => ([], false)

/-! ## getDirectorySize -/

/-- The width of `uintmax_t` arithmetic. -/
def UINTMAX_WIDTH : Nat := 64

/-- One run of the loop body of `getDirectorySize` (lines 27-29) with `size` as
it stands: the new value of `size`, or `none` when `fs::is_regular_file` or
`fs::file_size` throws.  The addition is that of `uintmax_t`. -/
def addSize (size : Nat) (entry : Node) : Option Nat :=
  match isRegularFile entry with
  | none => none
  | some true =>
    match fileSize entry with
    | none => none
    | some sz => some ((size + sz) % 2 ^ UINTMAX_WIDTH)
  | some false => some size

/-- The loop of `getDirectorySize` (lines 26-30) over the entries the iteration
yields: the value of `size` when the loop ends, and whether every run of the
body went through; the first run that throws ends the loop. -/
def sizeLoop (size : Nat) : List Node → Nat × Bool
  | [] => (size, true)
  | entry :: rest =>
    match addSize size entry with
    | none => (size, false)
    | some next => sizeLoop next rest

/-- The function `getDirectorySize` (lines 23-35): an exception, thrown by the
iteration or by the loop body, ends the loop and is swallowed by `catch (...)`,
and `size` as it stands is returned. -/
def getDirectorySize (dir : Node) : Nat :=
  (sizeLoop 0 (iterate dir).1).1

/-- Whether the run of `getDirectorySize` meets no error: the iteration does
not throw and no run of the loop body throws. -/
def sizeCompletes (dir : Node) : Bool :=
  (iterate dir).2 && (sizeLoop 0 (iterate dir).1).2

/-! ## The loading loop of main -/

/-- Lines 101-106: the value of `size` for an entry, or `none` when one of the
queries throws. -/
def entrySize (entry : Node) : Option Nat :=
  match isRegularFile entry with
  | none => none
  | some true => fileSize entry
  | some false =>
    match isDirectory entry with
    | none => none
    | some true => some (getDirectorySize entry)
    | some false => some 0

/-- The body of the loading loop (lines 98-118) for one entry: the row pushed
to `tableData`, or `none` when a call of the body throws (nothing in `main`
catches it). -/
def makeRow (entry : Node) : Option (List String) :=
  match entrySize entry with
  | none => none
  | some size =>
    match lastWriteTime entry with
    | none => none
    | some dateStr =>
      some [ entry.name,
             toString size ++ " bytes",
             dateStr.dropRight 1,
             getPermissions (entry.stat.map (fun st => st.st_mode)) entry.isSymlink ]

/-- The body of the loading loop run on the entries the iteration yields, in
order: the rows pushed, or `none` when one of the runs throws. -/
def pushRows : List Node → Option (List (List String))
  | [] => some []
  | entry :: rest =>
    match makeRow entry with
    | none => none
    | some row => (pushRows rest).map (fun tableData => row :: tableData)

/-- The loading loop of `main` (lines 97-119) on the root directory: the
`tableData` it builds, or `none` when an exception leaves the loop, thrown by
the iteration or by the body (the program then ends without drawing
anything). -/
def loadTable (root : Node) : Option (List (List String)) :=
  match pushRows (iterate root).1 with
  | none => none
  | some tableData => if (iterate root).2 then some tableData else none

/-! ## The tree as the specification sees it -/

mutual
/-- A node followed by every node under it, parents before their content, in
listing order.  The content behind a symbolic link to a directory is not under
the node: it belongs to the directory the link points to. -/
def belowNode : Node → List Node
  | .dir info openable children =>
    .dir info openable children :: (if info.isSymlink then [] else belowList children)
  | .file info size => [.file info size]
  | .other info => [.other info]
  | .missing name => [.missing name]
/-- The nodes of a directory content, each followed by the nodes under it. -/
def belowList : List Node → List Node
  | [] => []
  | n :: rest => belowNode n ++ belowList rest
end

/-- The filesystem nodes transitively under a directory, the directory itself
not included. -/
def below : Node → List Node
  | .dir _ _ children => belowList children
  | .file _ _ => []
  | .other _ => []
  | .missing _ => []

/-- The byte length a node contributes as a regular file: its own when it is a
regular file, nothing when it is a symbolic link or anything else. -/
def fileBytes : Node → Nat
  | .file info size => if info.isSymlink then 0 else size
  | .dir _ _ _ => 0
  | .other _ => 0
  | .missing _ => 0

/-- The byte length a node contributes when symbolic links to regular files
count too, each with the length of the file it points to. -/
def linkedBytes : Node → Nat
  | .file _ size => size
  | .dir _ _ _ => 0
  | .other _ => 0
  | .missing _ => 0

/-- The sum of the byte lengths of the regular files among `nodes`. -/
def sumBytes (nodes : List Node) : Nat := (nodes.map fileBytes).sum

/-- The sum of the byte lengths of the regular files and of the targets of the
symbolic links to regular files among `nodes`. -/
def sumLinkedBytes (nodes : List Node) : Nat := (nodes.map linkedBytes).sum

/-- The sum of the byte lengths of all regular files transitively beneath a
directory. -/
def totalBytes (dir : Node) : Nat := sumBytes (below dir)

/-- Whether a node is a symbolic link to a regular file. -/
def isFileLink : Node → Bool
  | .file info _ => info.isSymlink
  | .dir _ _ _ => false
  | .other _ => false
  | .missing _ => false

/-- The entries on which the loop body of `getDirectorySize` runs without
throwing, up to the first one on which it throws. -/
def processed (entries : List Node) : List Node :=
  entries.takeWhile (fun entry => (addSize 0 entry).isSome)

mutual
/-- Whether every directory in and under a node that the traversal has to open
can be opened. -/
def openNode : Node → Bool
  | .dir info openable children => info.isSymlink || (openable && openList children)
  | .file _ _ => true
  | .other _ => true
  | .missing _ => true
/-- Whether `openNode` holds of every node of a directory content. -/
def openList : List Node → Bool
  | [] => true
  | n :: rest => openNode n && openList rest
end

/-- An `SDL_Rect`. -/
structure SDL_Rect where
  x : Int
  y : Int
  w : Int
  h : Int
deriving DecidableEq

/-- An `SDL_Color`. -/
structure SDL_Color where
  r : Nat
  g : Nat
  b : Nat
  a : Nat
deriving DecidableEq

/-- The calls a frame makes on the renderer.  `RenderCopy text rect` stands for
rendering `text` with the font and copying it to `rect`. -/
inductive DrawCmd where
  | SetRenderDrawColor (c : SDL_Color)
  | RenderClear
  | RenderFillRect (rect : SDL_Rect)
  | RenderCopy (text : String) (rect : SDL_Rect)
  | RenderPresent
  | Delay (ms : Nat)
deriving DecidableEq

/-- Lines 91-94: the colours. -/
def backgroundColor : SDL_Color := ⟨30, 30, 30, 255⟩
def lineColor : SDL_Color := ⟨200, 200, 200, 255⟩
def textColor : SDL_Color := ⟨255, 255, 255, 255⟩
def redColor : SDL_Color := ⟨255, 0, 0, 255⟩

/-- Line 88. -/
def columnLabels : List String := ["Name", "File size", "Creation date", "Access rights"]

/-- Line 121. -/
def lines : Int := 4
/-- Line 124. -/
def inLineThickness : Int := 2
/-- Line 125. -/
def outLineThickness : Int := 4

/-- The conversion of an integer to the 32-bit `int`. -/
def toInt32 (n : Int) : Int := (n + 2 ^ 31) % 2 ^ 32 - 2 ^ 31

/-- Line 122: `int rows = tableData.size() + 1`, for a table of `n` rows. -/
def rowsOf (n : Nat) : Int := toInt32 ((n : Int) + 1)

/-- The values taken by the variable of `for (int i = lo; i < hi; ++i)`. -/
def forRange (lo hi : Int) : List Int :=
  (List.range (hi - lo).toNat).map (fun (k : Nat) => lo + (k : Int))

/-- Line 139. -/
def cellWidthOf (screenWidth : Int) : Int := Int.tdiv screenWidth lines

/-- Line 140. -/
def cellHeightOf (screenHeight rows : Int) : Int := Int.tdiv screenHeight rows

/-- Lines 146-150: the interior vertical separators. -/
def vSeparators (screenHeight cellWidth : Int) : List DrawCmd :=
  (forRange 1 lines).map
    (fun i => DrawCmd.RenderFillRect ⟨i * cellWidth, 0, inLineThickness, screenHeight⟩)

/-- Lines 151-155: the interior horizontal separators. -/
def hSeparators (screenWidth cellHeight rows : Int) : List DrawCmd :=
  (forRange 1 rows).map
    (fun j => DrawCmd.RenderFillRect ⟨0, j * cellHeight, screenWidth, inLineThickness⟩)

/-- Lines 157-166: the four border rectangles, left, top, right, bottom. -/
def borders (screenWidth screenHeight : Int) : List DrawCmd :=
  [ DrawCmd.SetRenderDrawColor redColor,
    DrawCmd.RenderFillRect ⟨0, 0, outLineThickness, screenHeight⟩,
    DrawCmd.RenderFillRect ⟨0, 0, screenWidth, outLineThickness⟩,
    DrawCmd.RenderFillRect ⟨screenWidth - outLineThickness, 0, outLineThickness, screenHeight⟩,
    DrawCmd.RenderFillRect ⟨0, screenHeight - outLineThickness, screenWidth, outLineThickness⟩ ]

/-- Lines 175-181: the rectangle of a header text in column `i`, for a text
measured `textW` by `textH`. -/
def headerRect (cellWidth cellHeight i textW textH : Int) : SDL_Rect :=
  ⟨i * cellWidth + Int.tdiv (cellWidth - textW) 2, Int.tdiv (cellHeight - textH) 2, textW, textH⟩

/-- Lines 196-202: the rectangle of the text of data row `row`, column `col`. -/
def dataRect (cellWidth cellHeight row col textW textH : Int) : SDL_Rect :=
  ⟨col * cellWidth + Int.tdiv (cellWidth - textW) 2,
   (row + 1) * cellHeight + Int.tdiv (cellHeight - textH) 2, textW, textH⟩

/-- Line 170: the label of column `i`. -/
def labelOf (labels : List String) (i : Int) : String :=
  if h : i.toNat < labels.length then labels.get ⟨i.toNat, h⟩ else ""

/-- Lines 169-186: the header cells.  `measure` gives the width and height
that `SDL_QueryTexture` reports for a rendered text. -/
def drawHeaders (measure : String → Int × Int) (labels : List String)
    (cellWidth cellHeight : Int) : List DrawCmd :=
  (forRange 0 lines).map (fun i =>
    let label := labelOf labels i
    DrawCmd.RenderCopy label
      (headerRect cellWidth cellHeight i (measure label).1 (measure label).2))

/-- The values of `col` for which the body of the loop of line 190 runs:
`col` goes up from 0 while `col < lines && col < tableData[row].size()`. -/
def loopCols (size : Nat) : List Int :=
  (forRange 0 lines).takeWhile (fun col => decide (col < (size : Int)))

/-- The runs of the body of the loop of line 190 (lines 191-206) for the given
values of `col`: each run reads `tableData[row][col]`; the result is `none`
when a read is past the end of the row. -/
def drawCells (measure : String → Int × Int) (cellWidth cellHeight : Int)
    (row : Nat) (cells : List String) : List Int → Option (List DrawCmd)
  | [] => some []
  | col :: cols =>
    match cells.get? col.toNat with
    | none => none
    | some cellText =>
      (drawCells measure cellWidth cellHeight row cells cols).map (fun later =>
        DrawCmd.RenderCopy cellText
          (dataRect cellWidth cellHeight row col (measure cellText).1 (measure cellText).2)
        :: later)

/-- Lines 190-207 for one data row. -/
def drawDataRow (measure : String → Int × Int) (cellWidth cellHeight : Int)
    (row : Nat) (cells : List String) : Option (List DrawCmd) :=
  drawCells measure cellWidth cellHeight row cells (loopCols cells.length)

/-- Lines 189-208: the data cells of all rows, rows numbered from `row` on. -/
def drawData (measure : String → Int × Int) (cellWidth cellHeight : Int) :
    Nat → List (List String) → Option (List DrawCmd)
  | _, [] => some []
  | row, cells :: rest =>
    match drawDataRow measure cellWidth cellHeight row cells with
    | none => none
    | some a =>
      (drawData measure cellWidth cellHeight (row + 1) rest).map (fun b => a ++ b)

/-- One run of the body of the render loop after polling (lines 137-211) on a
surface of `screenWidth` by `screenHeight`: the calls made on the renderer, in
order.  The result is `none` where C++ gives the run no meaning: a division by
`rows = 0`, or a read past the end of a row. -/
def drawFrame (measure : String → Int × Int) (labels : List String)
    (tableData : List (List String)) (screenWidth screenHeight : Int) :
    Option (List DrawCmd) :=
  let rows := rowsOf tableData.length
  if rows = 0 then none
  else
    let cellWidth := cellWidthOf screenWidth
    let cellHeight := cellHeightOf screenHeight rows
    match drawData measure cellWidth cellHeight 0 tableData with
    | none => none
    | some cells =>
      some ([DrawCmd.SetRenderDrawColor backgroundColor, DrawCmd.RenderClear,
             DrawCmd.SetRenderDrawColor lineColor]
            ++ vSeparators screenHeight cellWidth
            ++ hSeparators screenWidth cellHeight rows
            ++ borders screenWidth screenHeight
            ++ drawHeaders measure labels cellWidth cellHeight
            ++ cells
            ++ [DrawCmd.RenderPresent, DrawCmd.Delay 16])

/-! ## The render loop -/

/-- The two fields of an `SDL_Event` the loop reads: `event.type` and
`event.key.keysym.sym`. -/
structure SDL_Event where
  type : Nat
  sym : Int
deriving DecidableEq

/-- The value of `SDL_KEYDOWN` in SDL2. -/
def SDL_KEYDOWN : Nat := 0x300
/-- The value of `SDLK_ESCAPE` in SDL2. -/
def SDLK_ESCAPE : Int := 27

/-- The condition of line 132. -/
def isEscapeDown (event : SDL_Event) : Bool :=
  event.type == SDL_KEYDOWN && event.sym == SDLK_ESCAPE

/-- Lines 131-135: the events pending are drained; `running` becomes false
when one of them is an escape key-down. -/
def pollEvents (running : Bool) : List SDL_Event → Bool
  | [] => running
  | event :: rest => pollEvents (if isEscapeDown event then false else running) rest

/-- The two states of the render loop. -/
inductive LoopState where
  | Running
  | Terminated
deriving DecidableEq

/-- The state the flag `running` stands for. -/
def stateOf (running : Bool) : LoopState :=
  if running then LoopState.Running else LoopState.Terminated

/-- What one iteration of the render loop meets: the events pending when it
polls and the size `SDL_GetRendererOutputSize` reports. -/
structure Tick where
  events : List SDL_Event
  screenWidth : Int
  screenHeight : Int

/-- What the render loop does, in order. -/
inductive LoopAction where
  | polled (events : List SDL_Event)
  | drew (frame : Option (List DrawCmd))
deriving DecidableEq

/-- The render loop (lines 130-212) from iteration `k` on, with the flag
`running` as it stands when the condition of the `while` is tested.  `input k`
is what iteration `k` meets.  The result is the actions of the loop up to its
exit, or `none` when `fuel` iterations were not enough to reach the exit. -/
def renderLoop (measure : String → Int × Int) (labels : List String)
    (tableData : List (List String)) (input : Nat → Tick) :
    Nat → Nat → Bool → Option (List LoopAction)
  | _, _, false => some []
  | 0, _, true => none
  | fuel + 1, k, true =>
    let tick := input k
    let running := pollEvents true tick.events
    let frame := drawFrame measure labels tableData tick.screenWidth tick.screenHeight
    (renderLoop measure labels tableData input fuel (k + 1) running).map
      (fun later => LoopAction.polled tick.events :: LoopAction.drew frame :: later)

/-! ## Trees used as concrete inputs -/

/-- The `Info` of an entry on which `stat` succeeds and which is not a symbolic
link. -/
def okInfo (name : String) (st_mode : Nat) : Info :=
  ⟨name, some ⟨st_mode, "Thu Jan  1 00:00:00 1970\n"⟩, false⟩

/-- The `Info` of a symbolic link on whose path `stat` succeeds. -/
def linkInfo (name : String) (st_mode : Nat) : Info :=
  ⟨name, some ⟨st_mode, "Thu Jan  1 00:00:00 1970\n"⟩, true⟩

/-- A directory holding three files of `2 ^ 63 - 1` bytes each, the largest
size of a file on Linux. -/
def bigDir : Node :=
  .dir (okInfo "big" 0o040755) true
    [ .file (okInfo "a" 0o100644) 9223372036854775807,
      .file (okInfo "b" 0o100644) 9223372036854775807,
      .file (okInfo "c" 0o100644) 9223372036854775807 ]

/-- A directory `d` holding a file `f` of 10 bytes and a symbolic link `lf` to
`f`. -/
def linkedFileDir : Node :=
  .dir (okInfo "d" 0o040755) true
    [ .file (okInfo "f" 0o100644) 10, .file (linkInfo "lf" 0o100644) 10 ]

/-- A directory `sub` holding one file of 10 bytes. -/
def subDir : Node :=
  .dir (okInfo "sub" 0o040755) true [ .file (okInfo "f" 0o100644) 10 ]

/-- A directory `ns` that can be listed but not searched, holding a file of 10
bytes: `stat` fails on the file. -/
def noSearchDir : Node :=
  .dir (okInfo "ns" 0o040644) true [ .file ⟨"f", none, false⟩ 10 ]

/-- An empty directory `u` that cannot be opened. -/
def uDir : Node := .dir (okInfo "u" 0o040700) false []

/-- A root holding the directory `u`. -/
def rootU : Node := .dir (okInfo "root" 0o040755) true [ uDir ]

/-- A symbolic link whose target does not exist. -/
def danglingLink : Node := .missing "dangling"

/-- A root holding the dangling link. -/
def rootDangling : Node := .dir (okInfo "root" 0o040755) true [ danglingLink ]

/-- A root holding the directory `sub`. -/
def rootSub : Node := .dir (okInfo "root" 0o040755) true [ subDir ]

/-- An escape key-down event. -/
def escapeDown : SDL_Event := ⟨SDL_KEYDOWN, SDLK_ESCAPE⟩

/-- A key-down event of the key `a`. -/
def keyADown : SDL_Event := ⟨SDL_KEYDOWN, 97⟩

/-- A text measure: 14 pixels a character, 28 pixels high. -/
def fixedMeasure (text : String) : Int × Int := (14 * (text.length : Int), 28)

/-- An input whose first iteration already meets an escape key-down. -/
def escapeAtOnce (_ : Nat) : Tick := ⟨[escapeDown], 1920, 1080⟩

/-- An input whose iteration 0 meets a key-down of `a` and whose iteration 1
meets an escape key-down. -/
def escapeSecond (k : Nat) : Tick :=
  if k = 1 then ⟨[escapeDown], 1920, 1080⟩ else ⟨[keyADown], 1920, 1080⟩

/-! ## Theorems on getPermissions -/

/-- The characters of the text `getPermissions` returns when `stat` succeeds:
the three flags, one space, the ten characters of `perms`. -/
theorem getPermissions_data (st_mode : Nat) (isSymlink : Bool) :
    (getPermissions (some st_mode) isSymlink).data
      = permFlags st_mode isSymlink ++ ' ' :: permChars st_mode := by
  simp [getPermissions]

/-- C1, as the claim states it, fails: for a regular file of mode 0644 whose
`stat` succeeds the text returned is not the placeholder and is not 11
characters long. -/
theorem getPermissions_not_eleven :
    ¬ (getPermissions (some 0o100644) false = "??????????"
        ∨ (getPermissions (some 0o100644) false).length = 11) := by
  decide

/-- C1, amended: the text returned is either exactly the 10-character
placeholder (when `stat` fails) or, when `stat` succeeds, a text of exactly 14
characters: 3 flag characters, 1 separating space at index 3, and 10 mode
characters. -/
theorem getPermissions_length (st : Option Nat) (isSymlink : Bool) :
    (st = none ∧ getPermissions st isSymlink = "??????????"
        ∧ (getPermissions st isSymlink).length = 10)
      ∨ (st.isSome = true ∧ (getPermissions st isSymlink).length = 14
        ∧ (getPermissions st isSymlink).data.get? 3 = some ' ') := by
  cases st with
  | none => exact Or.inl ⟨rfl, rfl, rfl⟩
  | some st_mode =>
    refine Or.inr ⟨rfl, ?_, ?_⟩
    · simp [String.length, getPermissions_data, permFlags, permChars]
    · simp [getPermissions_data, permFlags]

/-- C2, as the claim states it, fails: for a directory of mode 0755 (not a
symbolic link) whose `stat` succeeds, the first character of the text is `-`,
not `d`. -/
theorem getPermissions_dir_first_char :
    S_ISDIR 0o040755 = true
      ∧ (getPermissions (some 0o040755) false).data.head? = some '-'
      ∧ (getPermissions (some 0o040755) false).data.head? ≠ some 'd' := by
  decide

/-- C2, amended: when `stat` succeeds, the first character of the text is the
symbolic-link flag, `l` for a symbolic link and `-` otherwise (so `-` for a
regular file that is not a symbolic link); the type character, `d` for a
directory and `-` otherwise, is the character at index 4, the first one after
the space. -/
theorem getPermissions_type_char (st_mode : Nat) (isSymlink : Bool) :
    (getPermissions (some st_mode) isSymlink).data.head?
        = some (if isSymlink then 'l' else '-')
      ∧ (getPermissions (some st_mode) isSymlink).data.get? 4
        = some (if S_ISDIR st_mode then 'd' else '-') := by
  constructor
  · simp [getPermissions_data, permFlags]
  · simp [getPermissions_data, permFlags, permChars]

/-- C9, as the claim states it, fails: for a regular file of mode 0644 the
character just before the last 9 characters is the type character `-`, not a
space; the space stands one place earlier. -/
theorem getPermissions_before_rwx :
    (getPermissions (some 0o100644) false).data.get?
        ((getPermissions (some 0o100644) false).length - 10) = some '-'
      ∧ (getPermissions (some 0o100644) false).data.get?
        ((getPermissions (some 0o100644) false).length - 10) ≠ some ' '
      ∧ (getPermissions (some 0o100644) false).data.get?
        ((getPermissions (some 0o100644) false).length - 11) = some ' ' := by
  decide

/-- C9, amended: when `stat` succeeds, the last 9 characters of the text are
the rwx triplets of owner, group and other, each `r`, `w` or `x` exactly when
its mode bit is set and `-` otherwise; they are preceded by the type character
(`d` for a directory, `-` otherwise), which is preceded by a single space that
follows the three flag characters (symbolic link, setuid, setgid). -/
theorem getPermissions_rwx (st_mode : Nat) (isSymlink : Bool) :
    (getPermissions (some st_mode) isSymlink).data.drop
        ((getPermissions (some st_mode) isSymlink).length - 9)
        = [ if st_mode &&& S_IRUSR ≠ 0 then 'r' else '-',
            if st_mode &&& S_IWUSR ≠ 0 then 'w' else '-',
            if st_mode &&& S_IXUSR ≠ 0 then 'x' else '-',
            if st_mode &&& S_IRGRP ≠ 0 then 'r' else '-',
            if st_mode &&& S_IWGRP ≠ 0 then 'w' else '-',
            if st_mode &&& S_IXGRP ≠ 0 then 'x' else '-',
            if st_mode &&& S_IROTH ≠ 0 then 'r' else '-',
            if st_mode &&& S_IWOTH ≠ 0 then 'w' else '-',
            if st_mode &&& S_IXOTH ≠ 0 then 'x' else '-' ]
      ∧ (getPermissions (some st_mode) isSymlink).data.take
        ((getPermissions (some st_mode) isSymlink).length - 9)
        = [ if isSymlink then 'l' else '-',
            if st_mode &&& S_ISUID ≠ 0 then 'u' else '-',
            if st_mode &&& S_ISGID ≠ 0 then 'g' else '-',
            ' ',
            if S_ISDIR st_mode then 'd' else '-' ] := by
  have hlen : (getPermissions (some st_mode) isSymlink).length = 14 := by
    simp [String.length, getPermissions_data, permFlags, permChars]
  rw [hlen, getPermissions_data]
  simp [permFlags, permChars, hasBit]

/-! ## Theorems on the traversal -/

mutual
/-- A traversal that does not throw yields the node and every node under it. -/
theorem walkNode_ok : ∀ n : Node, (walkNode n).2 = true → (walkNode n).1 = belowNode n
  | .dir info openable children, h => by
    unfold walkNode at h ⊢
    unfold belowNode
    by_cases hs : info.isSymlink = true
    · simp [hs]
    · by_cases ho : openable = true
      · simp only [hs, ho, if_true, Bool.false_eq_true, if_false] at h ⊢
        rw [walkList_ok children h]
      · simp [hs, ho] at h
  | .file info size, _ => by simp [walkNode, belowNode]
  | .other info, _ => by simp [walkNode, belowNode]
  | .missing name, _ => by simp [walkNode, belowNode]
/-- A traversal of a directory content that does not throw yields every node of
it. -/
theorem walkList_ok : ∀ l : List Node, (walkList l).2 = true → (walkList l).1 = belowList l
  | [], _ => by simp [walkList, belowList]
  | n :: rest, h => by
    unfold walkList at h ⊢
    unfold belowList
    by_cases hn : (walkNode n).2 = true
    · simp only [hn, if_true] at h ⊢
      rw [walkNode_ok n hn, walkList_ok rest h]
    · simp only [hn] at h
      simp at h
      exact absurd h hn
end

mutual
/-- What a traversal yields is an initial part of the node and the nodes under
it. -/
theorem walkNode_initial : ∀ n : Node, (walkNode n).1 <+: belowNode n
  | .dir info openable children => by
    unfold walkNode belowNode
    by_cases hs : info.isSymlink = true
    · simp [hs]
    · by_cases ho : openable = true
      · simp only [hs, ho, if_true, Bool.false_eq_true, if_false]
        exact (List.prefix_cons_inj _).2 (walkList_initial children)
      · simp only [hs, ho, Bool.false_eq_true, if_false]
        exact (List.prefix_cons_inj _).2 (List.nil_prefix)
  | .file info size => by simp [walkNode, belowNode]
  | .other info => by simp [walkNode, belowNode]
  | .missing name => by simp [walkNode, belowNode]
/-- What a traversal of a directory content yields is an initial part of its
nodes. -/
theorem walkList_initial : ∀ l : List Node, (walkList l).1 <+: belowList l
  | [] => by simp [walkList, belowList]
  | n :: rest => by
    unfold walkList belowList
    by_cases hn : (walkNode n).2 = true
    · simp only [hn, if_true]
      rw [walkNode_ok n hn]
      exact (List.prefix_append_right_inj _).2 (walkList_initial rest)
    · simp only [hn, Bool.false_eq_true, if_false]
      exact (walkNode_initial n).trans (List.prefix_append _ _)
end

mutual
/-- When every directory to open can be opened, the traversal does not throw
and yields everything. -/
theorem walkNode_open : ∀ n : Node, openNode n = true → walkNode n = (belowNode n, true)
  | .dir info openable children, h => by
    unfold openNode at h
    unfold walkNode belowNode
    by_cases hs : info.isSymlink = true
    · simp [hs]
    · simp only [hs, Bool.false_or, Bool.and_eq_true] at h
      simp only [hs, h.1, if_true, Bool.false_eq_true, if_false]
      rw [walkList_open children h.2]
  | .file info size, _ => by simp [walkNode, belowNode]
  | .other info, _ => by simp [walkNode, belowNode]
  | .missing name, _ => by simp [walkNode, belowNode]
/-- The same for a directory content. -/
theorem walkList_open : ∀ l : List Node, openList l = true → walkList l = (belowList l, true)
  | [], _ => by simp [walkList, belowList]
  | n :: rest, h => by
    unfold openList at h
    simp only [Bool.and_eq_true] at h
    unfold walkList belowList
    rw [walkNode_open n h.1, walkList_open rest h.2]
    simp
end

/-- The yielded entries of an iteration are an initial part of the nodes under
the directory. -/
theorem iterate_initial (dir : Node) : (iterate dir).1 <+: below dir := by
  cases dir with
  | dir info openable children =>
    unfold iterate below
    by_cases ho : openable = true
    · simp only [ho, if_true]
      exact walkList_initial children
    · simp only [ho, Bool.false_eq_true, if_false]
      exact List.nil_prefix
  | file info size => simp [iterate, below]
  | other info => simp [iterate, below]
  | missing name => simp [iterate, below]

/-- An iteration that does not throw yields every node under the directory. -/
theorem iterate_ok (dir : Node) (h : (iterate dir).2 = true) :
    (iterate dir).1 = below dir := by
  cases dir with
  | dir info openable children =>
    unfold iterate at h ⊢
    unfold below
    by_cases ho : openable = true
    · simp only [ho, if_true] at h ⊢
      exact walkList_ok children h
    · simp [ho] at h
  | file info size => simp [iterate] at h
  | other info => simp [iterate] at h
  | missing name => simp [iterate] at h

/-- A run of the loop body of `getDirectorySize` either throws, whatever `size`
is, or adds the byte length the entry has for `fs::file_size`, in
`uintmax_t`. -/
theorem addSize_cases (entry : Node) :
    (∀ a : Nat, addSize a entry = none)
      ∨ (∀ a : Nat, addSize (a % 2 ^ UINTMAX_WIDTH) entry
          = some ((a + linkedBytes entry) % 2 ^ UINTMAX_WIDTH)) := by
  cases entry with
  | file info size =>
    cases hst : info.stat with
    | none => left; intro a; simp [addSize, isRegularFile, hst]
    | some st =>
      right; intro a
      simp [addSize, isRegularFile, fileSize, hst, linkedBytes, Nat.mod_add_mod]
  | dir info openable children =>
    cases hst : info.stat with
    | none => left; intro a; simp [addSize, isRegularFile, hst]
    | some st => right; intro a; simp [addSize, isRegularFile, hst, linkedBytes]
  | other info =>
    cases hst : info.stat with
    | none => left; intro a; simp [addSize, isRegularFile, hst]
    | some st => right; intro a; simp [addSize, isRegularFile, hst, linkedBytes]
  | missing name => right; intro a; simp [addSize, isRegularFile, linkedBytes]

/-- The loop of `getDirectorySize` keeps in `size` the sum over the entries
processed so far, reduced modulo `2 ^ 64`. -/
theorem sizeLoop_value (entries : List Node) :
    ∀ a : Nat, (sizeLoop (a % 2 ^ UINTMAX_WIDTH) entries).1
      = (a + sumLinkedBytes (processed entries)) % 2 ^ UINTMAX_WIDTH := by
  induction entries with
  | nil => intro a; simp [sizeLoop, processed, sumLinkedBytes]
  | cons n rest ih =>
    intro a
    rcases addSize_cases n with hn | hn
    · simp [sizeLoop, processed, hn, sumLinkedBytes]
    · have h0 : addSize 0 n = some ((0 + linkedBytes n) % 2 ^ UINTMAX_WIDTH) := by
        simpa using hn 0
      simp only [sizeLoop, hn a, ih (a + linkedBytes n)]
      simp [processed, h0, sumLinkedBytes, List.takeWhile_cons, Nat.add_assoc]

/-- When no run of the loop body throws, every entry is processed. -/
theorem sizeLoop_flag (entries : List Node) :
    ∀ a : Nat, (sizeLoop a entries).2 = true → processed entries = entries := by
  induction entries with
  | nil => intro a _; rfl
  | cons n rest ih =>
    intro a h
    rcases addSize_cases n with hn | hn
    · simp [sizeLoop, hn] at h
    · have h0 : addSize 0 n = some ((0 + linkedBytes n) % 2 ^ UINTMAX_WIDTH) := by
        simpa using hn 0
      cases ha : addSize a n with
      | none => simp [sizeLoop, ha] at h
      | some next =>
        simp only [sizeLoop, ha] at h
        have := ih next h
        unfold processed at this ⊢
        simp [List.takeWhile_cons, h0, this]

/-- The value of `getDirectorySize`: the sum over the entries processed, modulo
`2 ^ 64`. -/
theorem getDirectorySize_eq (dir : Node) :
    getDirectorySize dir
      = sumLinkedBytes (processed (iterate dir).1) % 2 ^ UINTMAX_WIDTH := by
  have h := sizeLoop_value (iterate dir).1 0
  simpa [getDirectorySize] using h

/-- The sum over an initial part of a list is at most the sum over the list. -/
theorem sumLinkedBytes_initial {l₁ l₂ : List Node} (h : l₁ <+: l₂) :
    sumLinkedBytes l₁ ≤ sumLinkedBytes l₂ := by
  obtain ⟨t, rfl⟩ := h
  simp [sumLinkedBytes]

/-- Without symbolic links to regular files the two sums agree. -/
theorem sumLinkedBytes_eq (nodes : List Node)
    (h : nodes.all (fun n => !isFileLink n) = true) : sumLinkedBytes nodes = sumBytes nodes := by
  induction nodes with
  | nil => rfl
  | cons n rest ih =>
    simp only [List.all_cons, Bool.and_eq_true] at h
    have hrest := ih h.2
    simp only [sumLinkedBytes, sumBytes, List.map_cons, List.sum_cons] at hrest ⊢
    rw [hrest]
    cases n with
    | file info size =>
      have : info.isSymlink = false := by simpa [isFileLink] using h.1
      simp [linkedBytes, fileBytes, this]
    | dir info openable children => simp [linkedBytes, fileBytes]
    | other info => simp [linkedBytes, fileBytes]
    | missing name => simp [linkedBytes, fileBytes]

/-! ## Theorems on getDirectorySize -/

/-- C3, as the claim states it, fails.  On a directory holding three files of
`2 ^ 63 - 1` bytes no error occurs, the sum of the byte lengths is
27670116110564327421, and `getDirectorySize` returns 9223372036854775805, the
sum as it wrapped around in `uintmax_t`.  On a directory holding a file of 10
bytes and a symbolic link to it no error occurs, the regular files beneath it
hold 10 bytes, and `getDirectorySize` returns 20: the link is counted with the
length of its target. -/
theorem getDirectorySize_wraps :
    (sizeCompletes bigDir = true ∧ totalBytes bigDir = 27670116110564327421
        ∧ getDirectorySize bigDir = 9223372036854775805)
      ∧ (sizeCompletes linkedFileDir = true ∧ totalBytes linkedFileDir = 10
        ∧ getDirectorySize linkedFileDir = 20) := by
  decide

/-- C3, amended: `getDirectorySize` always returns a value (it is a total
function: every exception is swallowed), namely the sum, reduced modulo
`2 ^ 64`, of the byte lengths of the entries processed before the error that
are regular files or symbolic links to regular files, a link counted with the
length of its target.  When no error occurs this is that sum over all entries
transitively beneath the directory; it is exactly the sum of the byte lengths
of all regular files beneath the directory when, besides, none of the entries
is a symbolic link to a regular file and the sum is below `2 ^ 64`.  In every
case the value is at most the full sum with the links counted.  It is 0 for an
empty directory and 10 for a directory holding one file of 10 bytes. -/
theorem getDirectorySize_sum (dir : Node) :
    getDirectorySize dir = sumLinkedBytes (processed (iterate dir).1) % 2 ^ 64
      ∧ (sizeCompletes dir = true →
          getDirectorySize dir = sumLinkedBytes (below dir) % 2 ^ 64)
      ∧ (sizeCompletes dir = true → (below dir).all (fun n => !isFileLink n) = true →
          totalBytes dir < 2 ^ 64 → getDirectorySize dir = totalBytes dir)
      ∧ getDirectorySize dir ≤ sumLinkedBytes (below dir)
      ∧ (∀ info : Info, getDirectorySize (.dir info true []) = 0)
      ∧ (∀ (info : Info) (name : String) (st : Stat),
          getDirectorySize (.dir info true [.file ⟨name, some st, false⟩ 10]) = 10) := by
  have heq := getDirectorySize_eq dir
  simp only [UINTMAX_WIDTH] at heq
  have hall : sizeCompletes dir = true →
      processed (iterate dir).1 = below dir := by
    intro h
    simp only [sizeCompletes, Bool.and_eq_true] at h
    rw [sizeLoop_flag _ 0 h.2, iterate_ok dir h.1]
  refine ⟨heq, ?_, ?_, ?_, ?_, ?_⟩
  · intro h
    rw [heq, hall h]
  · intro h hlinks hlt
    rw [heq, hall h, sumLinkedBytes_eq _ hlinks, ← totalBytes, Nat.mod_eq_of_lt hlt]
  · rw [heq]
    refine (Nat.mod_le _ _).trans (sumLinkedBytes_initial ?_)
    exact (List.takeWhile_prefix _).trans (iterate_initial dir)
  · intro info
    rfl
  · intro info name st
    rfl

/-- C3, concrete cases: on the directory `sub` no error occurs, no entry is a
symbolic link and the sum is below `2 ^ 64`: the size returned is the full sum,
10.  On the directory `ns`, which can be listed but not searched, the loop body
throws on the first entry and the size returned is 0. -/
theorem getDirectorySize_sum_witness :
    sizeCompletes subDir = true ∧ (below subDir).all (fun n => !isFileLink n) = true
      ∧ totalBytes subDir < 2 ^ 64 ∧ getDirectorySize subDir = totalBytes subDir
      ∧ getDirectorySize subDir = 10
      ∧ sizeCompletes noSearchDir = false ∧ getDirectorySize noSearchDir = 0 :=
  ⟨by decide, by decide, by decide,
   (getDirectorySize_sum subDir).2.2.1 (by decide) (by decide) (by decide),
   by decide, by decide, by decide⟩

/-! ## Theorems on the loading loop -/

/-- C4, the code at the failing inputs: with a dangling symbolic link below the
root, and with an empty directory below the root that cannot be opened, one
node lies below the root and an exception leaves the loading loop: no table is
produced, where the claim has a table of one row. -/
theorem loadTable_aborts :
    ((below rootDangling).length = 1 ∧ loadTable rootDangling = none)
      ∧ ((below rootU).length = 1 ∧ loadTable rootU = none) := by
  decide

/-- The conversion to `int` keeps a value that fits. -/
theorem toInt32_of_lt (n : Int) (h0 : 0 ≤ n) (h : n < 2 ^ 31) : toInt32 n = n := by
  unfold toInt32
  omega

/-- For a table that fits, `rows` is the number of data rows plus one. -/
theorem rowsOf_of_lt (n : Nat) (h : n + 1 < 2 ^ 31) : rowsOf n = (n : Int) + 1 := by
  unfold rowsOf
  apply toInt32_of_lt <;> omega

/-- The loop of line 190 runs for `col = 0 .. min 4 size - 1`. -/
theorem loopCols_eq (size : Nat) :
    loopCols size = (List.range' 0 (min 4 size)).map (fun (c : Nat) => (c : Int)) := by
  have hr : forRange 0 lines = [0, 1, 2, 3] := by decide
  unfold loopCols
  rw [hr]
  obtain h | h | h | h | h : size = 0 ∨ size = 1 ∨ size = 2 ∨ size = 3 ∨ 4 ≤ size := by omega
  · subst h; decide
  · subst h; decide
  · subst h; decide
  · subst h; decide
  · have h4 : min 4 size = 4 := by omega
    rw [h4]
    have h0 : (0 : Int) < (size : Int) := by omega
    have h1 : (1 : Int) < (size : Int) := by omega
    have h2 : (2 : Int) < (size : Int) := by omega
    have h3 : (3 : Int) < (size : Int) := by omega
    simp [List.takeWhile_cons, h0, h1, h2, h3, List.range']

/-- The runs of the loop body over the columns of a middle part of a row draw
the cells of that part, each in its column. -/
theorem drawCells_mid (measure : String → Int × Int) (cellWidth cellHeight : Int) (row : Nat)
    (mid post : List String) :
    ∀ pre : List String,
      drawCells measure cellWidth cellHeight row (pre ++ mid ++ post)
          ((List.range' pre.length mid.length).map (fun (c : Nat) => (c : Int)))
        = some ((mid.enumFrom pre.length).map (fun p =>
            DrawCmd.RenderCopy p.2
              (dataRect cellWidth cellHeight row p.1 (measure p.2).1 (measure p.2).2))) := by
  induction mid with
  | nil => intro pre; simp [drawCells]
  | cons c rest ih =>
    intro pre
    have h := ih (pre ++ [c])
    simp only [List.length_append, List.length_singleton, List.append_assoc,
      List.singleton_append] at h
    have hget : (pre ++ c :: rest ++ post).get? pre.length = some c := by
      rw [List.get?_eq_getElem?, List.append_assoc, List.getElem?_append_right (le_refl _)]
      simp
    simp only [List.length_cons, List.range'_succ, List.map_cons, drawCells, Int.toNat_ofNat,
      List.append_assoc, List.cons_append, List.enumFrom_cons]
    simp only [List.append_assoc, List.cons_append] at hget
    rw [hget]
    simp only [List.cons_append] at h
    simp only [h]
    rfl

/-- A data row draws its first 4 cells, or all of them when there are fewer. -/
theorem drawDataRow_eq (measure : String → Int × Int) (cellWidth cellHeight : Int) (row : Nat)
    (cells : List String) :
    drawDataRow measure cellWidth cellHeight row cells
      = some (((cells.take 4).enum).map (fun p =>
          DrawCmd.RenderCopy p.2
            (dataRect cellWidth cellHeight row p.1 (measure p.2).1 (measure p.2).2))) := by
  have h := drawCells_mid measure cellWidth cellHeight row (cells.take 4) (cells.drop 4) []
  simp only [List.nil_append, List.take_append_drop, List.length_nil, List.length_take] at h
  unfold drawDataRow
  rw [loopCols_eq, h]
  rfl

/-- Drawing the data cells never reads past the end of a row. -/
theorem drawData_some (measure : String → Int × Int) (cellWidth cellHeight : Int)
    (tableData : List (List String)) :
    ∀ row : Nat, ∃ cmds, drawData measure cellWidth cellHeight row tableData = some cmds := by
  induction tableData with
  | nil => intro row; exact ⟨[], rfl⟩
  | cons cells rest ih =>
    intro row
    obtain ⟨b, hb⟩ := ih (row + 1)
    simp [drawData, drawDataRow_eq, hb]

/-- C6, as the claim states it, fails: for a table of 2147483647 data rows,
`rows` becomes -2147483648 in the conversion to `int`, the cell height is 0, and
the frame draws no horizontal separator at all: after the vertical separators
come the border rectangles. -/
theorem frame_rows_overflow :
    rowsOf 2147483647 = -2147483648
      ∧ cellHeightOf 1080 (rowsOf 2147483647) = 0
      ∧ hSeparators 1920 (cellHeightOf 1080 (rowsOf 2147483647)) (rowsOf 2147483647) = []
      ∧ ∃ cells, drawFrame fixedMeasure columnLabels (List.replicate 2147483647 []) 1920 1080
          = some ([ DrawCmd.SetRenderDrawColor backgroundColor, DrawCmd.RenderClear,
                    DrawCmd.SetRenderDrawColor lineColor ]
              ++ vSeparators 1080 480
              ++ borders 1920 1080
              ++ drawHeaders fixedMeasure columnLabels 480 0
              ++ cells
              ++ [DrawCmd.RenderPresent, DrawCmd.Delay 16]) := by
  have hrows : rowsOf 2147483647 = -2147483648 := by decide
  have hch : cellHeightOf 1080 (-2147483648) = 0 := by decide
  have hcw : cellWidthOf 1920 = 480 := by decide
  have hs : hSeparators 1920 0 (-2147483648) = [] := by decide
  refine ⟨hrows, by rw [hrows]; exact hch, by rw [hrows, hch]; exact hs, ?_⟩
  have hlen : (List.replicate 2147483647 ([] : List String)).length = 2147483647 :=
    List.length_replicate _ _
  generalize List.replicate 2147483647 ([] : List String) = T at hlen ⊢
  obtain ⟨cells, hc⟩ := drawData_some fixedMeasure 480 0 T 0
  refine ⟨cells, ?_⟩
  have hne : (-2147483648 : Int) ≠ 0 := by decide
  simp only [drawFrame, hlen, hrows, hch, hcw, hs, hc, hne, if_false, List.append_nil]

/-- C6, amended: for every surface size `W` by `H` and every number `N` of data
rows with `N + 1 < 2 ^ 31`, the frame uses the cell width `W / 4` and the cell
height `H / (N + 1)` (rounded down), draws the interior vertical separators at
`x = i * cellWidth` for exactly `i = 1, 2, 3` and the interior horizontal
separators at `y = j * cellHeight` for exactly `j = 1 .. N`, and draws the four
border rectangles; for `N = 0` the cell height is `H` and there is no
horizontal separator. -/
theorem frame_layout (measure : String → Int × Int) (labels : List String)
    (tableData : List (List String)) (W H : Nat) (h : tableData.length + 1 < 2 ^ 31) :
    cellWidthOf (W : Int) = ((W / 4 : Nat) : Int)
      ∧ cellHeightOf (H : Int) (rowsOf tableData.length)
          = ((H / (tableData.length + 1) : Nat) : Int)
      ∧ vSeparators (H : Int) (cellWidthOf (W : Int))
          = [ DrawCmd.RenderFillRect ⟨1 * ((W / 4 : Nat) : Int), 0, 2, (H : Int)⟩,
              DrawCmd.RenderFillRect ⟨2 * ((W / 4 : Nat) : Int), 0, 2, (H : Int)⟩,
              DrawCmd.RenderFillRect ⟨3 * ((W / 4 : Nat) : Int), 0, 2, (H : Int)⟩ ]
      ∧ hSeparators (W : Int) (cellHeightOf (H : Int) (rowsOf tableData.length))
            (rowsOf tableData.length)
          = (List.range tableData.length).map (fun (k : Nat) =>
              DrawCmd.RenderFillRect
                ⟨0, ((k : Int) + 1) * ((H / (tableData.length + 1) : Nat) : Int), (W : Int), 2⟩)
      ∧ (tableData = [] →
          cellHeightOf (H : Int) (rowsOf tableData.length) = (H : Int)
            ∧ hSeparators (W : Int) (cellHeightOf (H : Int) (rowsOf tableData.length))
                (rowsOf tableData.length) = [])
      ∧ ∃ cells, drawFrame measure labels tableData (W : Int) (H : Int)
          = some ([ DrawCmd.SetRenderDrawColor backgroundColor, DrawCmd.RenderClear,
                    DrawCmd.SetRenderDrawColor lineColor ]
              ++ vSeparators (H : Int) (cellWidthOf (W : Int))
              ++ hSeparators (W : Int) (cellHeightOf (H : Int) (rowsOf tableData.length))
                  (rowsOf tableData.length)
              ++ [ DrawCmd.SetRenderDrawColor redColor,
                   DrawCmd.RenderFillRect ⟨0, 0, 4, (H : Int)⟩,
                   DrawCmd.RenderFillRect ⟨0, 0, (W : Int), 4⟩,
                   DrawCmd.RenderFillRect ⟨(W : Int) - 4, 0, 4, (H : Int)⟩,
                   DrawCmd.RenderFillRect ⟨0, (H : Int) - 4, (W : Int), 4⟩ ]
              ++ drawHeaders measure labels (cellWidthOf (W : Int))
                  (cellHeightOf (H : Int) (rowsOf tableData.length))
              ++ cells
              ++ [DrawCmd.RenderPresent, DrawCmd.Delay 16]) := by
  have hrows := rowsOf_of_lt tableData.length h
  have hw : cellWidthOf (W : Int) = ((W / 4 : Nat) : Int) := by
    simp only [cellWidthOf, lines]
    exact (Int.ofNat_tdiv W 4).symm
  have hh : cellHeightOf (H : Int) (rowsOf tableData.length)
      = ((H / (tableData.length + 1) : Nat) : Int) := by
    rw [hrows]
    simp only [cellHeightOf]
    exact (Int.ofNat_tdiv H (tableData.length + 1)).symm
  have hv : vSeparators (H : Int) (cellWidthOf (W : Int))
      = [ DrawCmd.RenderFillRect ⟨1 * ((W / 4 : Nat) : Int), 0, 2, (H : Int)⟩,
          DrawCmd.RenderFillRect ⟨2 * ((W / 4 : Nat) : Int), 0, 2, (H : Int)⟩,
          DrawCmd.RenderFillRect ⟨3 * ((W / 4 : Nat) : Int), 0, 2, (H : Int)⟩ ] := by
    rw [hw]
    simp [vSeparators, forRange, lines, inLineThickness, List.range_succ]
  have hs : hSeparators (W : Int) (cellHeightOf (H : Int) (rowsOf tableData.length))
        (rowsOf tableData.length)
      = (List.range tableData.length).map (fun (k : Nat) =>
          DrawCmd.RenderFillRect
            ⟨0, ((k : Int) + 1) * ((H / (tableData.length + 1) : Nat) : Int), (W : Int), 2⟩) := by
    rw [hh, hrows]
    simp [hSeparators, forRange, inLineThickness, Function.comp_def, add_comm]
  refine ⟨hw, hh, hv, hs, ?_, ?_⟩
  · intro he
    subst he
    constructor
    · rw [hh]; simp
    · rw [hs]; simp
  · obtain ⟨cells, hc⟩ := drawData_some measure (cellWidthOf (W : Int))
      (cellHeightOf (H : Int) (rowsOf tableData.length)) tableData 0
    refine ⟨cells, ?_⟩
    have hne : rowsOf tableData.length ≠ 0 := by
      rw [hrows]; omega
    simp only [drawFrame, hne, if_false, hc, borders, outLineThickness]

/-- C6, a concrete case: for the empty table on a surface of 1920 by 1080 the
cell height is 1080 and no horizontal separator is drawn. -/
theorem frame_layout_witness :
    ([] : List (List String)).length + 1 < 2 ^ 31
      ∧ cellHeightOf (1080 : Nat) (rowsOf ([] : List (List String)).length) = ((1080 : Nat) : Int)
      ∧ hSeparators (1920 : Nat) (cellHeightOf (1080 : Nat) (rowsOf ([] : List (List String)).length))
          (rowsOf ([] : List (List String)).length) = [] :=
  ⟨by decide,
   (frame_layout (fun _ => (0, 0)) columnLabels [] 1920 1080 (by decide)).2.2.2.2.1 rfl⟩

/-- Halving with the division of C++ splits a difference into two parts that
differ by at most 1. -/
theorem tdiv_two_centered (d : Int) : |(Int.tdiv d 2) - (d - Int.tdiv d 2)| ≤ 1 := by
  rcases le_or_lt 0 d with hd | hd
  · rw [Int.tdiv_eq_ediv hd (by decide)]
    rw [abs_le]
    omega
  · have h : Int.tdiv d 2 = -((-d) / 2) := by
      have := Int.neg_tdiv (-d) 2
      rw [neg_neg] at this
      rw [this, Int.tdiv_eq_ediv (by omega) (by decide)]
    rw [h, abs_le]
    omega

/-- C7: the text rectangle of a header cell (grid row 0) and of a data cell of
data row `row` (grid row `row + 1`) is placed at
`x = col * cellWidth + (cellWidth - textW) / 2` and
`y = gridRow * cellHeight + (cellHeight - textH) / 2`, with the division of C++;
the left and right margins between the text and the edges of its cell differ by
at most 1, and so do the top and bottom margins. -/
theorem text_centered (cellWidth cellHeight textW textH col row : Int) :
    headerRect cellWidth cellHeight col textW textH
        = ⟨col * cellWidth + Int.tdiv (cellWidth - textW) 2,
           0 * cellHeight + Int.tdiv (cellHeight - textH) 2, textW, textH⟩
      ∧ dataRect cellWidth cellHeight row col textW textH
        = ⟨col * cellWidth + Int.tdiv (cellWidth - textW) 2,
           (row + 1) * cellHeight + Int.tdiv (cellHeight - textH) 2, textW, textH⟩
      ∧ |((headerRect cellWidth cellHeight col textW textH).x - col * cellWidth)
          - ((col + 1) * cellWidth
              - ((headerRect cellWidth cellHeight col textW textH).x
                  + (headerRect cellWidth cellHeight col textW textH).w))| ≤ 1
      ∧ |((headerRect cellWidth cellHeight col textW textH).y - 0 * cellHeight)
          - ((0 + 1) * cellHeight
              - ((headerRect cellWidth cellHeight col textW textH).y
                  + (headerRect cellWidth cellHeight col textW textH).h))| ≤ 1
      ∧ |((dataRect cellWidth cellHeight row col textW textH).x - col * cellWidth)
          - ((col + 1) * cellWidth
              - ((dataRect cellWidth cellHeight row col textW textH).x
                  + (dataRect cellWidth cellHeight row col textW textH).w))| ≤ 1
      ∧ |((dataRect cellWidth cellHeight row col textW textH).y - (row + 1) * cellHeight)
          - ((row + 1 + 1) * cellHeight
              - ((dataRect cellWidth cellHeight row col textW textH).y
                  + (dataRect cellWidth cellHeight row col textW textH).h))| ≤ 1 := by
  have hx := tdiv_two_centered (cellWidth - textW)
  have hy := tdiv_two_centered (cellHeight - textH)
  refine ⟨?_, ?_, ?_, ?_, ?_, ?_⟩
  · simp [headerRect]
  · rfl
  · simp only [headerRect]
    convert hx using 2
    ring
  · simp only [headerRect]
    convert hy using 2
    ring
  · simp only [dataRect]
    convert hx using 2
    ring
  · simp only [dataRect]
    convert hy using 2
    ring

/-- The label of column `i`: the entry `i` of the labels, or the empty text. -/
theorem labelOf_eq (labels : List String) (i : Nat) :
    labelOf labels (i : Int) = labels.getD i "" := by
  unfold labelOf
  by_cases h : i < labels.length
  · simp [h, List.getD_eq_getElem?_getD, List.getElem?_eq_getElem h]
  · simp [h, List.getD_eq_getElem?_getD, List.getElem?_eq_none (not_lt.1 h)]

/-- The data cells of a table: those of its rows, one row after the other. -/
theorem drawData_eq (measure : String → Int × Int) (cellWidth cellHeight : Int)
    (tableData : List (List String)) :
    ∀ row : Nat, drawData measure cellWidth cellHeight row tableData
      = some ((tableData.enumFrom row).flatMap (fun q =>
          ((q.2.take 4).enum).map (fun p =>
            DrawCmd.RenderCopy p.2
              (dataRect cellWidth cellHeight q.1 p.1 (measure p.2).1 (measure p.2).2)))) := by
  induction tableData with
  | nil => intro row; rfl
  | cons cells rest ih =>
    intro row
    simp [drawData, drawDataRow_eq, ih (row + 1)]

/-- C10: for a data row of any length the renderer reads no cell past the end of
the row (the result is `some`) and draws exactly its first `min 4 k` cells, the
cell at index `col` in column `col`; this holds of every row of the table; and
it draws exactly 4 header cells, column `i` with label `i`, or with the empty
text when there is no label `i`. -/
theorem cells_drawn (measure : String → Int × Int) (cellWidth cellHeight : Int) (row : Nat)
    (cells labels : List String) (tableData : List (List String)) :
    drawDataRow measure cellWidth cellHeight row cells
        = some (((cells.take 4).enum).map (fun p =>
            DrawCmd.RenderCopy p.2
              (dataRect cellWidth cellHeight row p.1 (measure p.2).1 (measure p.2).2)))
      ∧ ((cells.take 4).enum).length = min 4 cells.length
      ∧ drawData measure cellWidth cellHeight 0 tableData
        = some ((tableData.enum).flatMap (fun q =>
            ((q.2.take 4).enum).map (fun p =>
              DrawCmd.RenderCopy p.2
                (dataRect cellWidth cellHeight q.1 p.1 (measure p.2).1 (measure p.2).2))))
      ∧ drawHeaders measure labels cellWidth cellHeight
        = (List.range 4).map (fun (i : Nat) =>
            DrawCmd.RenderCopy (labels.getD i "")
              (headerRect cellWidth cellHeight i
                (measure (labels.getD i "")).1 (measure (labels.getD i "")).2))
      ∧ (drawHeaders measure labels cellWidth cellHeight).length = 4 := by
  refine ⟨drawDataRow_eq measure cellWidth cellHeight row cells, by simp,
    drawData_eq measure cellWidth cellHeight tableData 0, ?_, ?_⟩
  · have hr : forRange 0 lines = (List.range 4).map (fun (i : Nat) => (i : Int)) := by decide
    unfold drawHeaders
    rw [hr, List.map_map]
    apply List.map_congr_left
    intro i _
    simp only [Function.comp, labelOf_eq]
  · have hr : forRange 0 lines = [0, 1, 2, 3] := by decide
    simp [drawHeaders, hr]

/-- The condition of line 132, spelled out. -/
theorem isEscapeDown_iff (event : SDL_Event) :
    isEscapeDown event = true ↔ event.type = SDL_KEYDOWN ∧ event.sym = SDLK_ESCAPE := by
  simp [isEscapeDown]

/-- Polling never sets `running` back to true. -/
theorem pollEvents_false (events : List SDL_Event) : pollEvents false events = false := by
  induction events with
  | nil => rfl
  | cons e rest ih => simp [pollEvents, ih]

/-- Polling clears `running` exactly when an escape key-down is among the
events. -/
theorem pollEvents_true (events : List SDL_Event) :
    pollEvents true events = false ↔ ∃ e ∈ events, isEscapeDown e = true := by
  induction events with
  | nil => simp [pollEvents]
  | cons e rest ih =>
    by_cases he : isEscapeDown e = true
    · simp [pollEvents, he, pollEvents_false]
    · simp [pollEvents, he, ih]

/-- From iteration `s` on, with the first escape key-down polled `n` iterations
later, the loop runs `n + 1` iterations and exits. -/
theorem renderLoop_from (measure : String → Int × Int) (labels : List String)
    (tableData : List (List String)) (input : Nat → Tick) :
    ∀ (n s fuel : Nat),
      (∀ i, s ≤ i → i < s + n → pollEvents true (input i).events = true) →
      pollEvents true (input (s + n)).events = false →
      n + 1 ≤ fuel →
      renderLoop measure labels tableData input fuel s true
        = some ((List.range' s (n + 1)).flatMap (fun i =>
            [ LoopAction.polled (input i).events,
              LoopAction.drew (drawFrame measure labels tableData
                (input i).screenWidth (input i).screenHeight) ])) := by
  intro n
  induction n with
  | zero =>
    intro s fuel _ hesc hf
    obtain ⟨f, rfl⟩ : ∃ f, fuel = f + 1 := ⟨fuel - 1, by omega⟩
    simp only [Nat.add_zero] at hesc
    cases f <;> simp [renderLoop, hesc]
  | succ n ih =>
    intro s fuel hno hesc hf
    obtain ⟨f, rfl⟩ : ∃ f, fuel = f + 1 := ⟨fuel - 1, by omega⟩
    have h0 : pollEvents true (input s).events = true := hno s (le_refl _) (by omega)
    have hrec := ih (s + 1) f (fun i h1 h2 => hno i (by omega) (by omega))
      (by rw [show s + 1 + n = s + (n + 1) by omega]; exact hesc) (by omega)
    simp only [renderLoop, h0, hrec]
    simp [List.range'_succ]

/-- Without an escape key-down the loop uses up any fuel. -/
theorem renderLoop_no_escape (measure : String → Int × Int) (labels : List String)
    (tableData : List (List String)) (input : Nat → Tick)
    (hno : ∀ i, pollEvents true (input i).events = true) :
    ∀ (fuel s : Nat), renderLoop measure labels tableData input fuel s true = none := by
  intro fuel
  induction fuel with
  | zero => intro s; rfl
  | succ f ih =>
    intro s
    simp [renderLoop, hno s, ih (s + 1)]

/-- C8, as the claim states it, fails: when the first polling already observes
an escape key-down, the loop still draws a frame after it, and that frame is
presented. -/
theorem renderLoop_draws_after_escape :
    stateOf (pollEvents true (escapeAtOnce 0).events) = LoopState.Terminated
      ∧ renderLoop fixedMeasure columnLabels [] escapeAtOnce 1 0 true
        = some [ LoopAction.polled [escapeDown],
                 LoopAction.drew (drawFrame fixedMeasure columnLabels [] 1920 1080) ]
      ∧ (drawFrame fixedMeasure columnLabels [] 1920 1080).map
          (fun cmds => decide (DrawCmd.RenderPresent ∈ cmds)) = some true := by
  decide

/-- C8, amended: polling takes the loop from `Running` to `Terminated` exactly
when an escape key-down is among the events polled; without such an event the
loop never exits; and when the first such event is polled in iteration `k`, the
loop exits after iteration `k`: the frame of iteration `k` is still drawn and
presented after the polling that observed the event, and no frame after it. -/
theorem renderLoop_escape (measure : String → Int × Int) (labels : List String)
    (tableData : List (List String)) (input : Nat → Tick) :
    (∀ events : List SDL_Event,
        stateOf (pollEvents true events) = LoopState.Terminated
          ↔ ∃ e ∈ events, e.type = SDL_KEYDOWN ∧ e.sym = SDLK_ESCAPE)
      ∧ ((∀ i, ∀ e ∈ (input i).events, ¬ (e.type = SDL_KEYDOWN ∧ e.sym = SDLK_ESCAPE)) →
          ∀ fuel, renderLoop measure labels tableData input fuel 0 true = none)
      ∧ (∀ k fuel : Nat,
          (∀ i, i < k → ∀ e ∈ (input i).events, ¬ (e.type = SDL_KEYDOWN ∧ e.sym = SDLK_ESCAPE)) →
          (∃ e ∈ (input k).events, e.type = SDL_KEYDOWN ∧ e.sym = SDLK_ESCAPE) →
          k + 1 ≤ fuel →
          renderLoop measure labels tableData input fuel 0 true
            = some ((List.range (k + 1)).flatMap (fun i =>
                [ LoopAction.polled (input i).events,
                  LoopAction.drew (drawFrame measure labels tableData
                    (input i).screenWidth (input i).screenHeight) ]))) := by
  have hiff : ∀ events : List SDL_Event,
      pollEvents true events = false
        ↔ ∃ e ∈ events, e.type = SDL_KEYDOWN ∧ e.sym = SDLK_ESCAPE := by
    intro events
    rw [pollEvents_true]
    simp only [isEscapeDown_iff]
  have hrun : ∀ events : List SDL_Event,
      (∀ e ∈ events, ¬ (e.type = SDL_KEYDOWN ∧ e.sym = SDLK_ESCAPE)) →
        pollEvents true events = true := by
    intro events hno
    cases hp : pollEvents true events with
    | true => rfl
    | false =>
      obtain ⟨e, he, hesc⟩ := (hiff events).1 hp
      exact absurd hesc (hno e he)
  refine ⟨?_, ?_, ?_⟩
  · intro events
    rw [← hiff events]
    cases pollEvents true events <;> simp [stateOf]
  · intro hno fuel
    exact renderLoop_no_escape measure labels tableData input (fun i => hrun _ (hno i)) fuel 0
  · intro k fuel hno hesc hf
    have h := renderLoop_from measure labels tableData input k 0 fuel
      (fun i _ hi => hrun _ (hno i (by omega)))
      (by rw [Nat.zero_add]; exact (hiff _).2 hesc) hf
    rw [h, List.range_eq_range']

/-- C8, a concrete case: when iteration 1 polls the first escape key-down, the
loop exits after two iterations, each with its frame. -/
theorem renderLoop_escape_witness :
    (∀ i, i < 1 → ∀ e ∈ (escapeSecond i).events, ¬ (e.type = SDL_KEYDOWN ∧ e.sym = SDLK_ESCAPE))
      ∧ (∃ e ∈ (escapeSecond 1).events, e.type = SDL_KEYDOWN ∧ e.sym = SDLK_ESCAPE)
      ∧ renderLoop fixedMeasure columnLabels [] escapeSecond 2 0 true
        = some ((List.range (1 + 1)).flatMap (fun i =>
            [ LoopAction.polled (escapeSecond i).events,
              LoopAction.drew (drawFrame fixedMeasure columnLabels []
                (escapeSecond i).screenWidth (escapeSecond i).screenHeight) ])) :=
  have hno : ∀ i, i < 1 → ∀ e ∈ (escapeSecond i).events,
      ¬ (e.type = SDL_KEYDOWN ∧ e.sym = SDLK_ESCAPE) := by
    intro i hi e he
    have h0 : i = 0 := by omega
    subst h0
    simp [escapeSecond, keyADown] at he
    subst he
    decide
  have hesc : ∃ e ∈ (escapeSecond 1).events, e.type = SDL_KEYDOWN ∧ e.sym = SDLK_ESCAPE :=
    ⟨escapeDown, by simp [escapeSecond], by decide⟩
  ⟨hno, hesc,
   (renderLoop_escape fixedMeasure columnLabels [] escapeSecond).2.2 1 2 hno hesc (by decide)⟩

end SysProg

